import Mathlib

/-!
Shallow embedding of the Noto backend's text-extraction core:
`OCRService` (ocrService.js) and `TextExtractionService` (textExtraction.js).

Strings are modelled by Lean `String` (and, for the character-level
whitespace normalization, by `List Char`).  Byte buffers are modelled as
`List Nat` (one entry per byte); only their lengths and identities matter
to the properties below.  The remote OCR transport, the pdf-lib chunk
serialization and the sharp image compressor are external effects and are
modelled as oracle functions in an `OCREnv`.  JavaScript numbers appearing
in the size computations are divisions by powers of two of integers far
below 2^53, hence exact in IEEE doubles; they are modelled by exact
natural-number arithmetic.
-/

/-- The JavaScript whitespace class (the characters of `\s` and of
`String.prototype.trim` that can occur in this code path: ASCII blanks,
no-break space and BOM; the rarer Unicode space separators behave
identically for every property proved here). -/
def isJsWs (c : Char) : Bool :=
  c == ' ' || c == '\t' || c == '\n' || c == '\r' || c == '\x0b' || c == '\x0c'
    || c == '\u00a0' || c == '\ufeff'

/-- Model of `String.prototype.trim` on the character list of a string. -/
def trimChars (l : List Char) : List Char :=
  ((l.dropWhile isJsWs).reverse.dropWhile isJsWs).reverse

/-- Model of `String.prototype.trim`. -/
def jsTrim (s : String) : String := String.mk (trimChars s.data)

namespace OCRService

/-- Source: `this.maxFileSize = 1 * 1024 * 1024` (1 MiB payload ceiling). -/
def maxFileSize : ℕ := 1 * 1024 * 1024

/-- Source: `MAX_PAGES_PER_CHUNK = 3` (OCR.space free-tier page ceiling). -/
def MAX_PAGES_PER_CHUNK : ℕ := 3

/-- Source: `pagesBySize = Math.floor(900 / avgSizePerPage)` where
`avgSizePerPage = (totalSize/1024) / totalPages` KB.  In exact arithmetic
this is `floor(900 * 1024 * totalPages / totalSize)`. -/
def pagesBySize (totalSize totalPages : ℕ) : ℕ :=
  900 * 1024 * totalPages / totalSize

/-- Source: `maxPagesPerChunk = Math.min(MAX_PAGES_PER_CHUNK, Math.max(1, pagesBySize))`. -/
def maxPagesPerChunk (totalSize totalPages : ℕ) : ℕ :=
  min MAX_PAGES_PER_CHUNK (max 1 (pagesBySize totalSize totalPages))

/-- The chunk page-range loop of `splitAndProcessPDF`:
`for (let startPage = 0; startPage < totalPages; startPage += maxPagesPerChunk)`
with `endPage = Math.min(startPage + maxPagesPerChunk, totalPages)`; the
produced (1-based, inclusive) range of a chunk is
`(startPage + 1, endPage)`.  The `fuel` argument only bounds the number of
iterations; with `fuel = totalPages` and a positive step it never runs
out, so the function agrees with the JavaScript loop (which always runs
with step `maxPagesPerChunk ≥ 1`). -/
def chunkRangesFuel (p total : ℕ) : ℕ → ℕ → List (ℕ × ℕ)
  | 0, _ => []
  | fuel + 1, start =>
    if start < total then
      (start + 1, min (start + p) total) :: chunkRangesFuel p total fuel (start + p)
    else []

/-- The list of 1-based inclusive page ranges produced by the splitter for
a `total`-page PDF with `p` pages per chunk. -/
def chunkRanges (p total : ℕ) : List (ℕ × ℕ) :=
  chunkRangesFuel p total total 0

/-- The pages contained in one inclusive 1-based range. -/
def rangePages (r : ℕ × ℕ) : List ℕ := List.range' r.1 (r.2 + 1 - r.1)

theorem chunkRangesFuel_pages (p total : ℕ) (hp : 0 < p) :
    ∀ fuel start, total - start ≤ fuel →
      ((chunkRangesFuel p total fuel start).map rangePages).flatten
        = List.range' (start + 1) (total - start) := by
  intro fuel
  induction fuel with
  | zero =>
    intro start h
    have h0 : total - start = 0 := Nat.le_zero.mp h
    simp [chunkRangesFuel, h0]
  | succ n ih =>
    intro start h
    by_cases hs : start < total
    · have hrec := ih (start + p) (by omega)
      simp only [chunkRangesFuel, hs, if_true, List.map_cons, List.flatten_cons, hrec,
        rangePages]
      rcases Nat.le_total (start + p) total with hle | hle
      · have hmin : min (start + p) total = start + p := Nat.min_eq_left hle
        have hlen : (start + p) + 1 - (start + 1) = p := by omega
        have e2 : start + 1 + p = start + p + 1 := by omega
        have e3 : total - (start + p) + p = total - start := by omega
        calc List.range' (start + 1) ((start + 1, min (start + p) total).2 + 1 - (start + 1))
              ++ List.range' (start + p + 1) (total - (start + p))
            = List.range' (start + 1) p ++ List.range' (start + 1 + p) (total - (start + p)) := by
              rw [show ((start + 1, min (start + p) total).2 + 1 - (start + 1)) = p by
                simp only [hmin]; omega, e2]
          _ = List.range' (start + 1) (total - (start + p) + p) := List.range'_append_1 _ _ _
          _ = List.range' (start + 1) (total - start) := by rw [e3]
      · have hmin : min (start + p) total = total := Nat.min_eq_right hle
        have hempty : total - (start + p) = 0 := by omega
        rw [hempty]
        have hone : ((start + 1, min (start + p) total).2 + 1 - (start + 1)) = total - start := by
          simp only [hmin]; omega
        simp [hone]
    · have h0 : total - start = 0 := by omega
      simp [chunkRangesFuel, hs, h0]

theorem chunkRanges_pages (p total : ℕ) (hp : 0 < p) :
    ((chunkRanges p total).map rangePages).flatten = List.range' 1 total := by
  have := chunkRangesFuel_pages p total hp total 0 (by omega)
  simpa [chunkRanges] using this

theorem chunkRangesFuel_mem (p total : ℕ) (hp : 0 < p) :
    ∀ fuel start r, r ∈ chunkRangesFuel p total fuel start →
      r.1 ≤ r.2 ∧ r.2 + 1 - r.1 ≤ p ∧ (r.2 + 1 - r.1 = p ∨ r.2 = total) := by
  intro fuel
  induction fuel with
  | zero => intro start r hr; simp [chunkRangesFuel] at hr
  | succ n ih =>
    intro start r hr
    by_cases hs : start < total
    · simp only [chunkRangesFuel, hs, if_pos, List.mem_cons] at hr
      rcases hr with hr | hr
      · subst hr
        refine ⟨?_, ?_, ?_⟩
        · show start + 1 ≤ min (start + p) total
          omega
        · show min (start + p) total + 1 - (start + 1) ≤ p
          omega
        · rcases Nat.le_total (start + p) total with hle | hle
          · exact Or.inl (by show min (start + p) total + 1 - (start + 1) = p; omega)
          · exact Or.inr (by show min (start + p) total = total; omega)
      · exact ih (start + p) r hr
    · simp [chunkRangesFuel, hs] at hr

/-- Head of the chunk-range list at a given start. -/
theorem chunkRangesFuel_head (p total fuel start : ℕ) :
    (chunkRangesFuel p total (fuel + 1) start).head?
      = if start < total then some (start + 1, min (start + p) total) else none := by
  by_cases hs : start < total <;> simp [chunkRangesFuel, hs]

theorem chunkRangesFuel_consecutive (p total : ℕ) (hp : 0 < p) :
    ∀ fuel start, List.Chain' (fun r s => s.1 = r.2 + 1) (chunkRangesFuel p total fuel start) := by
  intro fuel
  induction fuel with
  | zero => intro start; simp [chunkRangesFuel]
  | succ n ih =>
    intro start
    by_cases hs : start < total
    · simp only [chunkRangesFuel, hs, if_pos]
      rw [List.chain'_cons']
      refine ⟨?_, ih (start + p)⟩
      intro b hb
      cases n with
      | zero => simp [chunkRangesFuel] at hb
      | succ m =>
        rw [chunkRangesFuel_head] at hb
        by_cases hs2 : start + p < total
        · simp only [hs2, if_true, Option.mem_def, Option.some.injEq] at hb
          subst hb
          show start + p + 1 = min (start + p) total + 1
          omega
        · simp [hs2, Option.mem_def] at hb
    · simp [chunkRangesFuel, hs]

theorem chunkRanges_consecutive (p total : ℕ) (hp : 0 < p) :
    List.Chain' (fun r s => s.1 = r.2 + 1) (chunkRanges p total) :=
  chunkRangesFuel_consecutive p total hp total 0

theorem chunkRanges_ascending (p total : ℕ) (hp : 0 < p) :
    List.Chain' (fun r s => r.2 < s.1) (chunkRanges p total) := by
  have h := chunkRanges_consecutive p total hp
  exact h.imp (fun a b hab => by omega)

/-- One element of the OCR.space `ParsedResults` array. -/
structure OCRPage where
  FileParseExitCode : Int
  ParsedText : String
deriving DecidableEq

/-- The OCR.space response body fields read by `parseOCRResponse`. -/
structure OCRResponse where
  IsErroredOnProcessing : Bool
  ErrorMessage : String
  OCRExitCode : Int
  ParsedResults : List OCRPage
deriving DecidableEq

/-- The per-page header written by `parseOCRResponse`:
`extractedText += '--- Page (i+1) ---\n...'`. -/
def pageMarker (n : ℕ) : String := "--- Page " ++ toString n ++ " ---\n"

/-- The successful-but-empty message of `parseOCRResponse`. -/
def noReadableTextMsg : String :=
  "No readable text found in the handwritten document. The image may be too blurry, low quality, or the handwriting may be unclear."

/-- The page-accumulation loop of `parseOCRResponse`: `i` is the 0-based
index of the head page in the whole `ParsedResults` array; a page whose
`FileParseExitCode` is 1 appends `--- Page (i+1) ---` plus its text and a
blank line, any other page appends nothing (log and skip). -/
def mergedOcrText : ℕ → List OCRPage → String
  | _, [] => ""
  | i, pg :: rest =>
    (if pg.FileParseExitCode = 1 then pageMarker (i + 1) ++ pg.ParsedText ++ "\n\n" else "")
      ++ mergedOcrText (i + 1) rest

/-- Model of `parseOCRResponse(data)`: raises (models `throw` as `Except.error`) on
`IsErroredOnProcessing` or an exit code other than 1 or 2; otherwise
accumulates per-page text, trims it, and returns the standard
no-readable-text message when the trimmed text is empty or shorter than
10 characters. -/
def parseOCRResponse (data : OCRResponse) : Except String String :=
  if data.IsErroredOnProcessing then
    Except.error (if data.ErrorMessage = "" then "OCR processing failed" else data.ErrorMessage)
  else if data.OCRExitCode ≠ 1 ∧ data.OCRExitCode ≠ 2 then
    Except.error ("OCR failed with exit code: " ++ toString data.OCRExitCode)
  else
    let extractedText := jsTrim (mergedOcrText 0 data.ParsedResults)
    if extractedText = "" ∨ extractedText.length < 10 then Except.ok noReadableTextMsg
    else Except.ok extractedText

/-- Outcome of the HTTP POST to OCR.space: either axios fails with a
status and message, or a JSON response body arrives. -/
inductive OCRTransport where
  | netError (status : ℕ) (msg : String)
  | response (resp : OCRResponse)

/-- External collaborators of `OCRService`, supplied as oracles: the HTTP
transport (keyed by the submitted payload bytes), the pdf-lib
serialization of a chunk's page range, and the sharp image compressor. -/
structure OCREnv where
  transport : List ℕ → OCRTransport
  chunkBytes : ℕ × ℕ → List ℕ
  compress : List ℕ → List ℕ

/-- The rate-limit message of `performOCR`'s catch block. -/
def rateLimitMsg : String := "OCR API rate limit reached. Please try again later."

/-- Model of `performOCR(buffer, ...)`: posts the payload and parses the response;
its catch block maps an HTTP 429 to the rate-limit message and wraps any
other failure (axios error or `parseOCRResponse` throw) as
`OCR API error: ...`. -/
def performOCR (env : OCREnv) (buffer : List ℕ) : Except String String :=
  match env.transport buffer with
  | OCRTransport.netError status msg =>
    if status = 429 then Except.error rateLimitMsg
    else Except.error ("OCR API error: " ++ msg)
  | OCRTransport.response resp =>
    match parseOCRResponse resp with
    | Except.ok t => Except.ok t
    | Except.error m => Except.error ("OCR API error: " ++ m)

/-- The `=== Pages a-b ===` header prefixed to a successful chunk's text. -/
def chunkHeader (r : ℕ × ℕ) : String :=
  "\n=== Pages " ++ toString r.1 ++ "-" ++ toString r.2 ++ " ===\n"

/-- Placeholder pushed for a chunk whose serialized bytes still exceed the
payload ceiling. -/
def tooLargeNote (r : ℕ × ℕ) : String :=
  "[Pages " ++ toString r.1 ++ "-" ++ toString r.2 ++ ": Too large to process]"

/-- Inline note pushed when `performOCR` fails for a chunk. -/
def failedNote (r : ℕ × ℕ) (msg : String) : String :=
  "[Pages " ++ toString r.1 ++ "-" ++ toString r.2 ++ ": Extraction failed - " ++ msg ++ "]"

/-- One iteration of the chunk loop of `splitAndProcessPDF`: serialize the
chunk's pages; if the chunk exceeds 1 MiB push the too-large placeholder
and continue; otherwise submit it and push either the header plus text or
the inline failure note.  (`chunkSizeKB > maxFileSize/1024` compares exact
multiples of 1/1024, so it is equivalent to `bytes.length > maxFileSize`.) -/
def chunkEntry (env : OCREnv) (r : ℕ × ℕ) : String :=
  if maxFileSize < (env.chunkBytes r).length then tooLargeNote r
  else
    match performOCR env (env.chunkBytes r) with
    | Except.ok t => chunkHeader r ++ t
    | Except.error m => failedNote r m

/-- The OCR submissions one chunk gives rise to: none when skipped as too
large, otherwise exactly the chunk's serialized bytes. -/
def chunkSubmits (env : OCREnv) (r : ℕ × ℕ) : List (List ℕ) :=
  if maxFileSize < (env.chunkBytes r).length then [] else [env.chunkBytes r]

/-- Model of `splitAndProcessPDF(pdfBuffer, fileName)` after the PDF is loaded:
computes the chunk ranges, processes every chunk in order, and joins the
collected entries with blank lines (`allPageTexts.join('\n\n')`).  The
second component records every payload submitted to OCR.space. -/
def splitAndProcessPDF (env : OCREnv) (totalSize totalPages : ℕ) :
    String × List (List ℕ) :=
  let ranges := chunkRanges (maxPagesPerChunk totalSize totalPages) totalPages
  (String.intercalate "\n\n" (ranges.map (chunkEntry env)),
   (ranges.map (chunkSubmits env)).flatten)

/-- Model of `isImageType(mimeType)`. -/
def isImageType (mimeType : String) : Bool := mimeType.startsWith "image/"

/-- The catch-all diagnostic of `extractTextFromHandwritten`. -/
def hwFailureMsg (fileName msg : String) : String :=
  "Unable to extract handwritten text from \"" ++ fileName
    ++ "\". This may be due to image quality or OCR limitations. Error: " ++ msg

/-- The tail of `extractTextFromHandwritten`: one direct `performOCR`
submission of the given payload; an error is caught and converted into the
diagnostic naming the file.  The second component records the submission. -/
def ocrSubmit (env : OCREnv) (buffer : List ℕ) (fileName : String) :
    String × List (List ℕ) :=
  match performOCR env buffer with
  | Except.ok t => (t, [buffer])
  | Except.error m => (hwFailureMsg fileName m, [buffer])

/-- Model of `extractTextFromHandwritten(buffer, fileName, mimeType)`.  `totalPages`
is the page count pdf-lib reports for the buffer (PDF loading itself is
assumed to succeed).  Buffers over 1 MiB are split (PDF) or compressed
(image) first; everything else — including every buffer of at most
1 MiB — is submitted directly and whole. -/
def extractTextFromHandwritten (env : OCREnv) (buffer : List ℕ)
    (fileName mimeType : String) (totalPages : ℕ) : String × List (List ℕ) :=
  if maxFileSize < buffer.length then
    if mimeType = "application/pdf" then
      splitAndProcessPDF env buffer.length totalPages
    else if isImageType mimeType then
      ocrSubmit env (env.compress buffer) fileName
    else
      ocrSubmit env buffer fileName
  else
    ocrSubmit env buffer fileName

end OCRService

namespace TextExtractionService

/-- Results (or throws, as `Except.error`) of the delegate extractors the
Orchestrator dispatches to: the handwritten OCR pipeline and the three
structured extractors.  Each delegate is an external call whose outcome is
supplied by this oracle record. -/
structure ExtractorEnv where
  hw : Except String String
  pdf : Except String String
  word : Except String String
  ppt : Except String String

/-- Short-text diagnostic of the `text/plain` case. -/
def shortTextMsg (fileName : String) (n : ℕ) : String :=
  "Text file \"" ++ fileName ++ "\" is very short or empty. Content length: "
    ++ toString n ++ " characters."

/-- The `default:` message of the MIME switch. -/
def unsupportedMsg (fileName mimeType : String) : String :=
  "Document \"" ++ fileName ++ "\" (" ++ mimeType
    ++ ") is supported for download but text extraction is not available for this file type."

/-- The outer catch's diagnostic of `extractTextFromBuffer`. -/
def extractionErrorMsg (fileName msg : String) : String :=
  "Unable to extract text from \"" ++ fileName ++ "\". Error: " ++ msg

/-- The two Word MIME cases of the switch. -/
def wordMimes : List String :=
  ["application/msword",
   "application/vnd.openxmlformats-officedocument.wordprocessingml.document"]

/-- The two PowerPoint MIME cases (listed twice in the source switch; the
duplicate cases collapse). -/
def pptMimes : List String :=
  ["application/vnd.ms-powerpoint",
   "application/vnd.openxmlformats-officedocument.presentationml.presentation"]

/-- Every MIME type with a non-default case in the typed switch. -/
def supportedTypedMimes : List String :=
  "application/pdf" :: wordMimes ++ pptMimes ++ ["text/plain"]

/-- The try-block body of `extractTextFromBuffer`: route handwritten
documents to the OCR pipeline, otherwise switch on the MIME type.
`textContent` is the UTF-8 decoding of the buffer (used only by the
`text/plain` case).  A delegate's throw surfaces as `Except.error`. -/
def extractTextFromBufferE (env : ExtractorEnv) (textContent fileName mimeType documentType :
    String) : Except String String :=
  if documentType = "handwritten" then env.hw
  else if mimeType = "application/pdf" then env.pdf
  else if mimeType ∈ wordMimes then env.word
  else if mimeType ∈ pptMimes then env.ppt
  else if mimeType = "text/plain" then
    if textContent.length < 50 then Except.ok (shortTextMsg fileName textContent.length)
    else Except.ok textContent
  else Except.ok (unsupportedMsg fileName mimeType)

/-- Model of `extractTextFromBuffer(buffer, fileName, mimeType, documentType)`:
the try body with the outer catch that converts any delegate throw into a
diagnostic string naming the file — the function always returns text. -/
def extractTextFromBuffer (env : ExtractorEnv)
    (textContent fileName mimeType documentType : String) : String :=
  match extractTextFromBufferE env textContent fileName mimeType documentType with
  | Except.ok s => s
  | Except.error e => extractionErrorMsg fileName e

end TextExtractionService

/-- Claim C1: for every `N ≥ 1`-page PDF and every pages-per-chunk value
`p ≥ 1`, the splitter's chunk page ranges are consecutive (each chunk
starts right after the previous one ends), in ascending order, each chunk
holds exactly `p` pages except a possibly shorter final chunk ending at
page `N`, and their concatenation is exactly the page list `1..N` (every
page covered exactly once, no gaps, no overlaps). -/
theorem C1_chunk_coverage (N p : ℕ) (hN : 0 < N) (hp : 0 < p) :
    ((OCRService.chunkRanges p N).map OCRService.rangePages).flatten = List.range' 1 N
    ∧ List.Chain' (fun r s => s.1 = r.2 + 1) (OCRService.chunkRanges p N)
    ∧ List.Chain' (fun r s => r.2 < s.1) (OCRService.chunkRanges p N)
    ∧ ∀ r ∈ OCRService.chunkRanges p N,
        r.1 ≤ r.2 ∧ r.2 + 1 - r.1 ≤ p ∧ (r.2 + 1 - r.1 = p ∨ r.2 = N) :=
  ⟨OCRService.chunkRanges_pages p N hp,
   OCRService.chunkRanges_consecutive p N hp,
   OCRService.chunkRanges_ascending p N hp,
   fun r hr => OCRService.chunkRangesFuel_mem p N hp N 0 r hr⟩

/-- Witness for C1 at `N = 10`, `p = 3`: the produced ranges are
`(1,3), (4,6), (7,9), (10,10)` and the stated properties hold there. -/
theorem C1_chunk_coverage_witness :
    OCRService.chunkRanges 3 10 = [(1, 3), (4, 6), (7, 9), (10, 10)]
    ∧ (((OCRService.chunkRanges 3 10).map OCRService.rangePages).flatten = List.range' 1 10
      ∧ List.Chain' (fun r s => s.1 = r.2 + 1) (OCRService.chunkRanges 3 10)
      ∧ List.Chain' (fun r s => r.2 < s.1) (OCRService.chunkRanges 3 10)
      ∧ ∀ r ∈ OCRService.chunkRanges 3 10,
          r.1 ≤ r.2 ∧ r.2 + 1 - r.1 ≤ 3 ∧ (r.2 + 1 - r.1 = 3 ∨ r.2 = 10)) :=
  ⟨by decide, C1_chunk_coverage 10 3 (by decide) (by decide)⟩

/-- Claim C6: the splitter's pages-per-chunk value `min(3, max(1, pagesBySize))`
equals the spec's `max(1, min(pagesBySize, 3))` — both clamp the
size-derived page count to the interval `[1, 3]` — and the underlying
clamp identity holds for every integer. -/
theorem C6_pages_per_chunk_clamp :
    (∀ x : ℤ, min 3 (max 1 x) = max 1 (min x 3))
    ∧ ∀ totalSize totalPages : ℕ,
        OCRService.maxPagesPerChunk totalSize totalPages
          = max 1 (min (OCRService.pagesBySize totalSize totalPages) 3) := by
  constructor
  · intro x
    omega
  · intro S P
    unfold OCRService.maxPagesPerChunk OCRService.MAX_PAGES_PER_CHUNK
    omega

/-- Claim C2: every chunk the splitter produces either fits under the
1 MiB payload ceiling, or it is skipped: its entry in the merged output is
exactly the bracketed too-large placeholder naming its page range, it
gives rise to no OCR submission, and the merged output still consists of
one entry per chunk (the remaining chunks are processed; nothing aborts). -/
theorem C2_size_ceiling (env : OCRService.OCREnv) (S P : ℕ) (r : ℕ × ℕ)
    (hr : r ∈ OCRService.chunkRanges (OCRService.maxPagesPerChunk S P) P) :
    ((env.chunkBytes r).length ≤ OCRService.maxFileSize)
    ∨ (OCRService.chunkEntry env r = OCRService.tooLargeNote r
        ∧ OCRService.chunkSubmits env r = []
        ∧ (OCRService.splitAndProcessPDF env S P).1
            = String.intercalate "\n\n"
                ((OCRService.chunkRanges (OCRService.maxPagesPerChunk S P) P).map
                  (OCRService.chunkEntry env))) := by
  by_cases h : OCRService.maxFileSize < (env.chunkBytes r).length
  · refine Or.inr ⟨?_, ?_, rfl⟩
    · unfold OCRService.chunkEntry
      rw [if_pos h]
    · unfold OCRService.chunkSubmits
      rw [if_pos h]
  · exact Or.inl (by omega)

/-- Environment in which every serialized chunk is larger than 1 MiB. -/
def oversizeChunkEnv : OCRService.OCREnv where
  transport := fun _ => OCRService.OCRTransport.netError 500 "unreachable"
  chunkBytes := fun _ => List.replicate (OCRService.maxFileSize + 1) 0
  compress := id

/-- Witness for C2: a 2 MiB, 6-page PDF is split into ranges
`(1,2), (3,4), (5,6)`; with every serialized chunk oversized, chunk
`(1,2)` is a produced chunk and the dichotomy of C2 holds for it. -/
theorem C2_size_ceiling_witness :
    (1, 2) ∈ OCRService.chunkRanges (OCRService.maxPagesPerChunk 2097152 6) 6
    ∧ (((oversizeChunkEnv.chunkBytes (1, 2)).length ≤ OCRService.maxFileSize)
      ∨ (OCRService.chunkEntry oversizeChunkEnv (1, 2) = OCRService.tooLargeNote (1, 2)
          ∧ OCRService.chunkSubmits oversizeChunkEnv (1, 2) = []
          ∧ (OCRService.splitAndProcessPDF oversizeChunkEnv 2097152 6).1
              = String.intercalate "\n\n"
                  ((OCRService.chunkRanges (OCRService.maxPagesPerChunk 2097152 6) 6).map
                    (OCRService.chunkEntry oversizeChunkEnv)))) :=
  ⟨by decide, C2_size_ceiling oversizeChunkEnv 2097152 6 (1, 2) (by decide)⟩

/-- Claim C9 (implicit): a handwritten buffer of at most 1 MiB — whatever
its MIME type and, for a PDF, whatever its page count, including more than
3 pages — is submitted to the remote provider directly: exactly one
request, carrying the entire unmodified buffer, with no compression and no
splitting; the 3-page ceiling plays no role on this path. -/
theorem C9_direct_submission (env : OCRService.OCREnv) (buffer : List ℕ)
    (fileName mimeType : String) (totalPages : ℕ)
    (h : buffer.length ≤ OCRService.maxFileSize) :
    OCRService.extractTextFromHandwritten env buffer fileName mimeType totalPages
      = OCRService.ocrSubmit env buffer fileName
    ∧ (OCRService.extractTextFromHandwritten env buffer fileName mimeType totalPages).2
      = [buffer] := by
  have hnot : ¬ OCRService.maxFileSize < buffer.length := by omega
  have h1 : OCRService.extractTextFromHandwritten env buffer fileName mimeType totalPages
      = OCRService.ocrSubmit env buffer fileName := by
    unfold OCRService.extractTextFromHandwritten
    rw [if_neg hnot]
  refine ⟨h1, ?_⟩
  rw [h1]
  unfold OCRService.ocrSubmit
  cases OCRService.performOCR env buffer <;> rfl

/-- Witness for C9: a 3-byte PDF buffer reported as having 7 pages (more
than the 3-page ceiling) is still submitted whole in a single request. -/
theorem C9_direct_submission_witness :
    ([10, 20, 30] : List ℕ).length ≤ OCRService.maxFileSize
    ∧ (OCRService.extractTextFromHandwritten oversizeChunkEnv [10, 20, 30]
          "notes.pdf" "application/pdf" 7
        = OCRService.ocrSubmit oversizeChunkEnv [10, 20, 30] "notes.pdf"
      ∧ (OCRService.extractTextFromHandwritten oversizeChunkEnv [10, 20, 30]
            "notes.pdf" "application/pdf" 7).2
        = [[10, 20, 30]]) :=
  ⟨by decide,
   C9_direct_submission oversizeChunkEnv [10, 20, 30] "notes.pdf" "application/pdf" 7
     (by decide)⟩

instance {ε α : Type} [DecidableEq ε] [DecidableEq α] : DecidableEq (Except ε α) := fun a b =>
  match a, b with
  | Except.ok x, Except.ok y =>
    decidable_of_iff (x = y) ⟨fun h => by rw [h], fun h => by cases h; rfl⟩
  | Except.error x, Except.error y =>
    decidable_of_iff (x = y) ⟨fun h => by rw [h], fun h => by cases h; rfl⟩
  | Except.ok _, Except.error _ => isFalse (fun h => by cases h)
  | Except.error _, Except.ok _ => isFalse (fun h => by cases h)

/-- Concatenation of a list of strings. -/
def concatAll (l : List String) : String := l.foldr (fun a b => a ++ b) ""

/-- Spec-side rendering (for the refinement statements of C7 and C10) of
the sentence "iterate per-page results in order; for each page with a
successful parse code, append its text under a `--- Page N ---` marker;
for a failed page, skip": the page at 0-based position `i` of the response
contributes its marker `i + 1` and its text exactly when its exit code is
1; every other page contributes nothing. -/
def specMergedPages (pages : List OCRService.OCRPage) : String :=
  concatAll ((List.enumFrom 0 pages).filterMap (fun ip =>
    if ip.2.FileParseExitCode = 1
    then some (OCRService.pageMarker (ip.1 + 1) ++ ip.2.ParsedText ++ "\n\n")
    else none))

theorem mergedOcrText_enumFrom (pages : List OCRService.OCRPage) :
    ∀ i, OCRService.mergedOcrText i pages
      = concatAll ((List.enumFrom i pages).filterMap (fun ip =>
          if ip.2.FileParseExitCode = 1
          then some (OCRService.pageMarker (ip.1 + 1) ++ ip.2.ParsedText ++ "\n\n")
          else none)) := by
  induction pages with
  | nil => intro i; rfl
  | cons pg rest ih =>
    intro i
    simp only [OCRService.mergedOcrText, List.enumFrom_cons, List.filterMap_cons]
    by_cases h : pg.FileParseExitCode = 1
    · simp only [h, if_true, concatAll, List.foldr_cons, ih]
    · simp only [h, if_false, concatAll, List.foldr_cons, ih, String.empty_append]

/-- Shared helper: on a response with no processing-level error flag and a
recognized exit code, `parseOCRResponse` succeeds with the per-page merge
(or the standard message when that merge trims to fewer than 10
characters). -/
theorem parseOCRResponse_ok (resp : OCRService.OCRResponse)
    (herr : resp.IsErroredOnProcessing = false)
    (hcode : resp.OCRExitCode = 1 ∨ resp.OCRExitCode = 2) :
    OCRService.parseOCRResponse resp
      = Except.ok
          (if jsTrim (specMergedPages resp.ParsedResults) = ""
              ∨ (jsTrim (specMergedPages resp.ParsedResults)).length < 10
            then OCRService.noReadableTextMsg
            else jsTrim (specMergedPages resp.ParsedResults)) := by
  have hc : ¬(resp.OCRExitCode ≠ 1 ∧ resp.OCRExitCode ≠ 2) := by tauto
  unfold OCRService.parseOCRResponse
  rw [if_neg (by simp [herr]), if_neg hc, mergedOcrText_enumFrom resp.ParsedResults 0]
  show (if jsTrim (specMergedPages resp.ParsedResults) = ""
          ∨ (jsTrim (specMergedPages resp.ParsedResults)).length < 10
        then Except.ok OCRService.noReadableTextMsg
        else Except.ok (jsTrim (specMergedPages resp.ParsedResults))) = _
  split <;> rfl

/-- Shared helper: `performOCR` on a payload whose transport yields a
parseable response returns the parsed body. -/
theorem performOCR_response_ok (env : OCRService.OCREnv) (b : List ℕ)
    (resp : OCRService.OCRResponse)
    (h : env.transport b = OCRService.OCRTransport.response resp)
    (herr : resp.IsErroredOnProcessing = false)
    (hcode : resp.OCRExitCode = 1 ∨ resp.OCRExitCode = 2) :
    OCRService.performOCR env b
      = Except.ok
          (if jsTrim (specMergedPages resp.ParsedResults) = ""
              ∨ (jsTrim (specMergedPages resp.ParsedResults)).length < 10
            then OCRService.noReadableTextMsg
            else jsTrim (specMergedPages resp.ParsedResults)) := by
  unfold OCRService.performOCR
  rw [h]
  show (match OCRService.parseOCRResponse resp with
        | Except.ok t => Except.ok t
        | Except.error m => Except.error ("OCR API error: " ++ m)) = _
  rw [parseOCRResponse_ok resp herr hcode]

/-- Shared helper: a `parseOCRResponse` throw is rewrapped by
`performOCR`'s catch as `OCR API error: ...`. -/
theorem performOCR_response_error (env : OCRService.OCREnv) (b : List ℕ)
    (resp : OCRService.OCRResponse) (m : String)
    (h : env.transport b = OCRService.OCRTransport.response resp)
    (hparse : OCRService.parseOCRResponse resp = Except.error m) :
    OCRService.performOCR env b = Except.error ("OCR API error: " ++ m) := by
  unfold OCRService.performOCR
  rw [h]
  show (match OCRService.parseOCRResponse resp with
        | Except.ok t => Except.ok t
        | Except.error m => Except.error ("OCR API error: " ++ m)) = _
  rw [hparse]

/-- Shared helper: a submitted chunk whose OCR call succeeds contributes
its header plus text. -/
theorem chunkEntry_ok (env : OCRService.OCREnv) (r : ℕ × ℕ) (t : String)
    (hs : (env.chunkBytes r).length ≤ OCRService.maxFileSize)
    (hp : OCRService.performOCR env (env.chunkBytes r) = Except.ok t) :
    OCRService.chunkEntry env r = OCRService.chunkHeader r ++ t := by
  unfold OCRService.chunkEntry
  rw [if_neg (by omega), hp]

/-- Shared helper: a submitted chunk whose OCR call fails contributes the
inline failure note. -/
theorem chunkEntry_error (env : OCRService.OCREnv) (r : ℕ × ℕ) (m : String)
    (hs : (env.chunkBytes r).length ≤ OCRService.maxFileSize)
    (hp : OCRService.performOCR env (env.chunkBytes r) = Except.error m) :
    OCRService.chunkEntry env r = OCRService.failedNote r m := by
  unfold OCRService.chunkEntry
  rw [if_neg (by omega), hp]

/-- Shared helper: the merged text of `splitAndProcessPDF` is the
blank-line join of the per-chunk entries. -/
theorem splitAndProcessPDF_fst (env : OCRService.OCREnv) (S P : ℕ) :
    (OCRService.splitAndProcessPDF env S P).1
      = String.intercalate "\n\n"
          ((OCRService.chunkRanges (OCRService.maxPagesPerChunk S P) P).map
            (OCRService.chunkEntry env)) := rfl

/-- Shared helper: the splitter's pages-per-chunk value is at least 1. -/
theorem maxPagesPerChunk_pos (S P : ℕ) : 0 < OCRService.maxPagesPerChunk S P := by
  unfold OCRService.maxPagesPerChunk OCRService.MAX_PAGES_PER_CHUNK
  omega

/-- Claim C7: on a response without the processing-error flag and with a
recognized exit code (1 or 2) the parse succeeds — it never errors:
exactly the pages whose parse exit code is 1 are appended, in response
order, each under its own `--- Page N ---` marker (0-based response
position `i` gives marker `i + 1`); a failed page contributes no text and
does not fail the call; and when the merged trimmed text is empty or
shorter than 10 characters, the standard no-readable-text message is
returned as a successful, non-error result. -/
theorem C7_parse_page_results (resp : OCRService.OCRResponse)
    (herr : resp.IsErroredOnProcessing = false)
    (hcode : resp.OCRExitCode = 1 ∨ resp.OCRExitCode = 2) :
    OCRService.parseOCRResponse resp
      = Except.ok
          (if jsTrim (specMergedPages resp.ParsedResults) = ""
              ∨ (jsTrim (specMergedPages resp.ParsedResults)).length < 10
            then OCRService.noReadableTextMsg
            else jsTrim (specMergedPages resp.ParsedResults)) :=
  parseOCRResponse_ok resp herr hcode

/-- A response with one failed page between two successful ones. -/
def sampleParsedResponse : OCRService.OCRResponse where
  IsErroredOnProcessing := false
  ErrorMessage := ""
  OCRExitCode := 1
  ParsedResults :=
    [{ FileParseExitCode := 1, ParsedText := "Meeting notes from Tuesday" },
     { FileParseExitCode := 99, ParsedText := "unreadable page" },
     { FileParseExitCode := 1, ParsedText := "Action items for next week" }]

/-- Witness for C7 on `sampleParsedResponse`. -/
theorem C7_parse_page_results_witness :
    sampleParsedResponse.IsErroredOnProcessing = false
    ∧ (sampleParsedResponse.OCRExitCode = 1 ∨ sampleParsedResponse.OCRExitCode = 2)
    ∧ OCRService.parseOCRResponse sampleParsedResponse
      = Except.ok
          (if jsTrim (specMergedPages sampleParsedResponse.ParsedResults) = ""
              ∨ (jsTrim (specMergedPages sampleParsedResponse.ParsedResults)).length < 10
            then OCRService.noReadableTextMsg
            else jsTrim (specMergedPages sampleParsedResponse.ParsedResults)) :=
  ⟨rfl, Or.inl rfl, C7_parse_page_results sampleParsedResponse rfl (Or.inl rfl)⟩

/-- Claim C10 (implicit): inside the merged output of a chunked PDF, the
`--- Page N ---` markers of a chunk's section number the pages of that
chunk's own OCR response — position `i` in the response gives marker
`i + 1`, restarting at 1 for every chunk and independent of the chunk's
page range: two chunks receiving identical responses produce identical
bodies, differing only in their `=== Pages a-b ===` headers, so the
document-global position of a page is recoverable only from that header. -/
theorem C10_markers_restart_per_chunk (env : OCRService.OCREnv) (r r2 : ℕ × ℕ)
    (resp : OCRService.OCRResponse)
    (h1 : env.transport (env.chunkBytes r) = OCRService.OCRTransport.response resp)
    (h2 : env.transport (env.chunkBytes r2) = OCRService.OCRTransport.response resp)
    (hs1 : (env.chunkBytes r).length ≤ OCRService.maxFileSize)
    (hs2 : (env.chunkBytes r2).length ≤ OCRService.maxFileSize)
    (herr : resp.IsErroredOnProcessing = false)
    (hcode : resp.OCRExitCode = 1 ∨ resp.OCRExitCode = 2) :
    ∃ body : String,
      OCRService.chunkEntry env r = OCRService.chunkHeader r ++ body
      ∧ OCRService.chunkEntry env r2 = OCRService.chunkHeader r2 ++ body
      ∧ body = (if jsTrim (specMergedPages resp.ParsedResults) = ""
              ∨ (jsTrim (specMergedPages resp.ParsedResults)).length < 10
            then OCRService.noReadableTextMsg
            else jsTrim (specMergedPages resp.ParsedResults)) :=
  ⟨_,
   chunkEntry_ok env r _ hs1 (performOCR_response_ok env _ resp h1 herr hcode),
   chunkEntry_ok env r2 _ hs2 (performOCR_response_ok env _ resp h2 herr hcode),
   rfl⟩

/-- Environment whose transport answers every payload with
`sampleParsedResponse` and whose chunks are all small. -/
def uniformResponseEnv : OCRService.OCREnv where
  transport := fun _ => OCRService.OCRTransport.response sampleParsedResponse
  chunkBytes := fun r => [r.1, r.2]
  compress := id

/-- Witness for C10: the chunks `(1,3)` and `(7,9)` receive the same
response and produce the same body under different headers. -/
theorem C10_markers_restart_per_chunk_witness :
    uniformResponseEnv.transport (uniformResponseEnv.chunkBytes (1, 3))
      = OCRService.OCRTransport.response sampleParsedResponse
    ∧ (∃ body : String,
        OCRService.chunkEntry uniformResponseEnv (1, 3)
          = OCRService.chunkHeader (1, 3) ++ body
        ∧ OCRService.chunkEntry uniformResponseEnv (7, 9)
          = OCRService.chunkHeader (7, 9) ++ body
        ∧ body = (if jsTrim (specMergedPages sampleParsedResponse.ParsedResults) = ""
                ∨ (jsTrim (specMergedPages sampleParsedResponse.ParsedResults)).length < 10
              then OCRService.noReadableTextMsg
              else jsTrim (specMergedPages sampleParsedResponse.ParsedResults))) :=
  ⟨rfl,
   C10_markers_restart_per_chunk uniformResponseEnv (1, 3) (7, 9) sampleParsedResponse
     rfl rfl (by decide) (by decide) rfl (Or.inl rfl)⟩

/-- Claim C3: if, among the chunks of an oversize PDF (all of which
serialize under the payload ceiling), the OCR call fails for exactly one
chunk `r0` and succeeds for every other, the merged result is still the
blank-line join of one entry per chunk in ascending page order: each
surviving chunk's text under its `=== Pages a-b ===` header, and in
`r0`'s place the inline bracketed `[Pages a-b: Extraction failed - ...]`
note; the overall pipeline call returns this text as an ordinary
successful result. -/
theorem C3_partial_failure_isolation (env : OCRService.OCREnv) (S P : ℕ)
    (buffer : List ℕ) (fileName : String) (r0 : ℕ × ℕ) (msg : String)
    (txt : ℕ × ℕ → String)
    (hbuf : buffer.length = S)
    (hbig : OCRService.maxFileSize < S)
    (hsize : ∀ r ∈ OCRService.chunkRanges (OCRService.maxPagesPerChunk S P) P,
        (env.chunkBytes r).length ≤ OCRService.maxFileSize)
    (hr0 : r0 ∈ OCRService.chunkRanges (OCRService.maxPagesPerChunk S P) P)
    (hfail : OCRService.performOCR env (env.chunkBytes r0) = Except.error msg)
    (hok : ∀ r ∈ OCRService.chunkRanges (OCRService.maxPagesPerChunk S P) P,
        r ≠ r0 → OCRService.performOCR env (env.chunkBytes r) = Except.ok (txt r)) :
    (OCRService.extractTextFromHandwritten env buffer fileName "application/pdf" P).1
      = String.intercalate "\n\n"
          ((OCRService.chunkRanges (OCRService.maxPagesPerChunk S P) P).map
            (fun r => if r = r0 then OCRService.failedNote r0 msg
                      else OCRService.chunkHeader r ++ txt r))
    ∧ List.Chain' (fun a b => a.2 < b.1)
        (OCRService.chunkRanges (OCRService.maxPagesPerChunk S P) P) := by
  subst hbuf
  constructor
  · have hext : OCRService.extractTextFromHandwritten env buffer fileName "application/pdf" P
        = OCRService.splitAndProcessPDF env buffer.length P := by
      unfold OCRService.extractTextFromHandwritten
      rw [if_pos hbig, if_pos rfl]
    rw [hext, splitAndProcessPDF_fst]
    congr 1
    apply List.map_congr_left
    intro r hr
    by_cases he : r = r0
    · subst he
      rw [if_pos rfl]
      exact chunkEntry_error env r msg (hsize r hr) hfail
    · rw [if_neg he]
      exact chunkEntry_ok env r (txt r) (hsize r hr) (hok r hr he)
  · exact OCRService.chunkRanges_ascending _ P (maxPagesPerChunk_pos _ P)

/-- A response whose single page parses successfully with readable text. -/
def goodChunkResponse : OCRService.OCRResponse where
  IsErroredOnProcessing := false
  ErrorMessage := ""
  OCRExitCode := 1
  ParsedResults :=
    [{ FileParseExitCode := 1,
       ParsedText := "The quick brown fox jumps over the lazy dog" }]

/-- Environment in which the chunk covering pages 4-6 times out and every
other chunk parses fine. -/
def timeoutEnv : OCRService.OCREnv where
  transport := fun b =>
    if b = [4, 6] then OCRService.OCRTransport.netError 0 "timeout of 30000ms exceeded"
    else OCRService.OCRTransport.response goodChunkResponse
  chunkBytes := fun r => [r.1, r.2]
  compress := id

/-- The text every successful chunk of `timeoutEnv` yields. -/
def goodChunkText : String :=
  "--- Page 1 ---\nThe quick brown fox jumps over the lazy dog"

/-- Witness for C3: a 2700 KB, 9-page PDF splits into chunks
`(1,3), (4,6), (7,9)`; chunk 2 times out and the others succeed, and the
merged output keeps both surviving chunks around the inline note. -/
theorem C3_partial_failure_isolation_witness :
    (List.replicate 2764800 (0 : ℕ)).length = 2764800
    ∧ OCRService.maxFileSize < 2764800
    ∧ OCRService.chunkRanges (OCRService.maxPagesPerChunk 2764800 9) 9
        = [(1, 3), (4, 6), (7, 9)]
    ∧ ((OCRService.extractTextFromHandwritten timeoutEnv (List.replicate 2764800 0)
          "diary.pdf" "application/pdf" 9).1
        = String.intercalate "\n\n"
            ((OCRService.chunkRanges (OCRService.maxPagesPerChunk 2764800 9) 9).map
              (fun r => if r = (4, 6)
                        then OCRService.failedNote (4, 6)
                            "OCR API error: timeout of 30000ms exceeded"
                        else OCRService.chunkHeader r ++ (fun _ => goodChunkText) r))
      ∧ List.Chain' (fun a b => a.2 < b.1)
          (OCRService.chunkRanges (OCRService.maxPagesPerChunk 2764800 9) 9)) :=
  ⟨List.length_replicate 2764800 0, by decide, by decide,
   C3_partial_failure_isolation timeoutEnv 2764800 9 (List.replicate 2764800 0)
     "diary.pdf" (4, 6) "OCR API error: timeout of 30000ms exceeded" (fun _ => goodChunkText)
     (List.length_replicate 2764800 0) (by decide) (by decide) (by decide) (by decide)
     (by decide)⟩

/-- A response carrying the provider's processing-level error flag. -/
def erroredResp : OCRService.OCRResponse where
  IsErroredOnProcessing := true
  ErrorMessage := "E101: OCR quota reached"
  OCRExitCode := 99
  ParsedResults := []

/-- Environment in which the chunk covering pages 1-2 receives a
processing-level provider error and every other payload parses fine. -/
def c4Env : OCRService.OCREnv where
  transport := fun b =>
    if b = [1, 2] then OCRService.OCRTransport.response erroredResp
    else OCRService.OCRTransport.response goodChunkResponse
  chunkBytes := fun r => [r.1, r.2]
  compress := id

/-- Counterexample to C4: in a 1800 KB, 4-page PDF split into chunks
`(1,2)` and `(3,4)`, the first chunk's response has
`IsErroredOnProcessing` set, yet the pipeline call does not abort: the
error is downgraded to the per-chunk inline
`[Pages 1-2: Extraction failed - ...]` note, the second chunk is still
processed, and the call returns the merged text of both entries. -/
theorem C4_counterexample :
    erroredResp.IsErroredOnProcessing = true
    ∧ c4Env.transport (c4Env.chunkBytes (1, 2))
        = OCRService.OCRTransport.response erroredResp
    ∧ (1, 2) ∈ OCRService.chunkRanges (OCRService.maxPagesPerChunk 1843200 4) 4
    ∧ OCRService.chunkEntry c4Env (1, 2)
        = OCRService.failedNote (1, 2) "OCR API error: E101: OCR quota reached"
    ∧ (OCRService.splitAndProcessPDF c4Env 1843200 4).1
        = "[Pages 1-2: Extraction failed - OCR API error: E101: OCR quota reached]\n\n\n=== Pages 3-4 ===\n--- Page 1 ---\nThe quick brown fox jumps over the lazy dog" :=
  ⟨rfl, rfl, by decide, by decide, by decide⟩

/-- Claim C4 as amended: a response with `IsErroredOnProcessing` set, or
with an unrecognized overall exit code, makes `parseOCRResponse` raise an
error.  On the direct-submission path this aborts the call and the
pipeline converts it into the diagnostic string naming the original
filename (nothing is raised further).  On the chunked path, however, the
error is caught per chunk and downgraded to the inline
`[Pages a-b: Extraction failed - ...]` note, and processing of the
remaining chunks continues. -/
theorem C4_provider_error_paths :
    (∀ resp : OCRService.OCRResponse, resp.IsErroredOnProcessing = true →
      OCRService.parseOCRResponse resp
        = Except.error (if resp.ErrorMessage = "" then "OCR processing failed"
                        else resp.ErrorMessage))
    ∧ (∀ resp : OCRService.OCRResponse, resp.IsErroredOnProcessing = false →
        resp.OCRExitCode ≠ 1 → resp.OCRExitCode ≠ 2 →
        OCRService.parseOCRResponse resp
          = Except.error ("OCR failed with exit code: " ++ toString resp.OCRExitCode))
    ∧ (∀ (env : OCRService.OCREnv) (buffer : List ℕ) (fileName mimeType : String)
          (pages : ℕ) (resp : OCRService.OCRResponse) (m : String),
        buffer.length ≤ OCRService.maxFileSize →
        env.transport buffer = OCRService.OCRTransport.response resp →
        OCRService.parseOCRResponse resp = Except.error m →
        OCRService.extractTextFromHandwritten env buffer fileName mimeType pages
          = (OCRService.hwFailureMsg fileName ("OCR API error: " ++ m), [buffer]))
    ∧ (∀ (env : OCRService.OCREnv) (r : ℕ × ℕ) (resp : OCRService.OCRResponse) (m : String),
        (env.chunkBytes r).length ≤ OCRService.maxFileSize →
        env.transport (env.chunkBytes r) = OCRService.OCRTransport.response resp →
        OCRService.parseOCRResponse resp = Except.error m →
        OCRService.chunkEntry env r = OCRService.failedNote r ("OCR API error: " ++ m)) := by
  refine ⟨?_, ?_, ?_, ?_⟩
  · intro resp h
    unfold OCRService.parseOCRResponse
    rw [if_pos h]
  · intro resp h h1 h2
    unfold OCRService.parseOCRResponse
    rw [if_neg (by simp [h]), if_pos ⟨h1, h2⟩]
  · intro env buffer fileName mimeType pages resp m hlen htr hparse
    have hnot : ¬ OCRService.maxFileSize < buffer.length := by omega
    unfold OCRService.extractTextFromHandwritten
    rw [if_neg hnot]
    unfold OCRService.ocrSubmit
    rw [performOCR_response_error env buffer resp m htr hparse]
  · intro env r resp m hlen htr hparse
    exact chunkEntry_error env r _ hlen (performOCR_response_error env _ resp m htr hparse)

/-- Witness for the amended C4: the concrete errored response aborts the
parse; on the direct path the 2-byte buffer yields the filename-naming
diagnostic, and on the chunked path the same response becomes the inline
note for chunk `(1,2)`. -/
theorem C4_provider_error_paths_witness :
    OCRService.parseOCRResponse erroredResp = Except.error "E101: OCR quota reached"
    ∧ OCRService.extractTextFromHandwritten c4Env [1, 2] "scan.pdf" "application/pdf" 12
        = (OCRService.hwFailureMsg "scan.pdf" "OCR API error: E101: OCR quota reached",
           [[1, 2]])
    ∧ OCRService.chunkEntry c4Env (1, 2)
        = OCRService.failedNote (1, 2) "OCR API error: E101: OCR quota reached" := by
  refine ⟨?_, ?_, ?_⟩
  · have h := C4_provider_error_paths.1 erroredResp rfl
    rw [if_neg (by decide)] at h
    exact h
  · exact C4_provider_error_paths.2.2.1 c4Env [1, 2] "scan.pdf" "application/pdf" 12
      erroredResp "E101: OCR quota reached" (by decide) rfl (by decide)
  · exact C4_provider_error_paths.2.2.2 c4Env (1, 2) erroredResp "E101: OCR quota reached"
      (by decide) rfl (by decide)

/-- Claim C5: the Orchestrator's `extractTextFromBuffer` always returns a
string and never raises: a delegate's throw is caught and converted into
the diagnostic naming the file and the error, a delegate's (or inline
case's) text is returned as is, and a MIME type outside the supported set
(with a non-handwritten document type) yields the descriptive
not-available-for-this-file-type message rather than an error. -/
theorem C5_orchestrator_never_throws (env : TextExtractionService.ExtractorEnv)
    (textContent fileName mimeType documentType e : String) :
    (TextExtractionService.extractTextFromBufferE env textContent fileName mimeType
        documentType = Except.error e →
      TextExtractionService.extractTextFromBuffer env textContent fileName mimeType
        documentType = TextExtractionService.extractionErrorMsg fileName e)
    ∧ (∀ s, TextExtractionService.extractTextFromBufferE env textContent fileName mimeType
          documentType = Except.ok s →
        TextExtractionService.extractTextFromBuffer env textContent fileName mimeType
          documentType = s)
    ∧ (documentType ≠ "handwritten" →
        mimeType ∉ TextExtractionService.supportedTypedMimes →
        TextExtractionService.extractTextFromBuffer env textContent fileName mimeType
          documentType = TextExtractionService.unsupportedMsg fileName mimeType) := by
  refine ⟨?_, ?_, ?_⟩
  · intro h
    unfold TextExtractionService.extractTextFromBuffer
    rw [h]
  · intro s h
    unfold TextExtractionService.extractTextFromBuffer
    rw [h]
  · intro hdoc hmime
    have hpdf : ¬ mimeType = "application/pdf" := fun h => hmime (by rw [h]; decide)
    have hword : mimeType ∉ TextExtractionService.wordMimes := fun h =>
      hmime (by
        simp only [TextExtractionService.supportedTypedMimes, List.mem_cons, List.mem_append]
        tauto)
    have hppt : mimeType ∉ TextExtractionService.pptMimes := fun h =>
      hmime (by
        simp only [TextExtractionService.supportedTypedMimes, List.mem_cons, List.mem_append]
        tauto)
    have htxt : ¬ mimeType = "text/plain" := fun h => hmime (by rw [h]; decide)
    have hE : TextExtractionService.extractTextFromBufferE env textContent fileName mimeType
        documentType = Except.ok (TextExtractionService.unsupportedMsg fileName mimeType) := by
      unfold TextExtractionService.extractTextFromBufferE
      rw [if_neg hdoc, if_neg hpdf, if_neg hword, if_neg hppt, if_neg htxt]
    unfold TextExtractionService.extractTextFromBuffer
    rw [hE]

/-- A delegate record in which the handwritten pipeline throws. -/
def throwingDelegates : TextExtractionService.ExtractorEnv where
  hw := Except.error "OCR exploded"
  pdf := Except.error "unused"
  word := Except.error "unused"
  ppt := Except.error "unused"

/-- Witness for C5: a handwritten document whose delegate throws comes
back as the caught diagnostic, and an `image/png` typed document comes
back as the not-available message. -/
theorem C5_orchestrator_never_throws_witness :
    TextExtractionService.extractTextFromBuffer throwingDelegates "body" "a.pdf"
        "application/pdf" "handwritten"
      = TextExtractionService.extractionErrorMsg "a.pdf" "OCR exploded"
    ∧ TextExtractionService.extractTextFromBuffer throwingDelegates "body" "img.png"
        "image/png" "typed"
      = TextExtractionService.unsupportedMsg "img.png" "image/png" :=
  ⟨(C5_orchestrator_never_throws throwingDelegates "body" "a.pdf" "application/pdf"
      "handwritten" "OCR exploded").1 rfl,
   (C5_orchestrator_never_throws throwingDelegates "body" "img.png" "image/png" "typed"
      "").2.2 (by decide) (by decide)⟩

/-- Model of `.replace(/\r\n/g, '\n')`: every CRLF pair becomes a lone LF, scanning
left to right. -/
def replaceCrlf : List Char → List Char
  | [] => []
  | [c] => [c]
  | c :: d :: rest =>
    if c = '\r' ∧ d = '\n' then '\n' :: replaceCrlf rest
    else c :: replaceCrlf (d :: rest)

/-- Model of `.replace(/\n{3,}/g, '\n\n')`: a maximal run of three or more
newlines collapses to two; shorter runs are kept as they are. -/
def collapseNl : List Char → List Char
  | [] => []
  | c :: cs =>
    if c = '\n' then
      if 2 ≤ (cs.takeWhile (fun d => d == '\n')).length then
        '\n' :: '\n' :: collapseNl (cs.dropWhile (fun d => d == '\n'))
      else c :: collapseNl cs
    else c :: collapseNl cs
termination_by l => l.length
decreasing_by
  · have := (List.dropWhile_suffix (fun d => d == '\n') (l := cs)).sublist.length_le
    simp
    omega
  · simp
  · simp

/-- Model of `.replace(/\s+/g, ' ')`: every maximal whitespace run becomes a
single space. -/
def collapseWs : List Char → List Char
  | [] => []
  | c :: cs =>
    if isJsWs c then ' ' :: collapseWs (cs.dropWhile isJsWs)
    else c :: collapseWs cs
termination_by l => l.length
decreasing_by
  · have := (List.dropWhile_suffix isJsWs (l := cs)).sublist.length_le
    simp
    omega
  · simp

/-- The whitespace normalization `extractFromPDF` and
`extractFromPowerPoint` apply to extracted text:
`.replace(/\r\n/g,'\n').replace(/\n{3,}/g,'\n\n').replace(/\s+/g,' ').trim()`
on the character list of the string. -/
def normalizeText (l : List Char) : List Char :=
  trimChars (collapseWs (collapseNl (replaceCrlf l)))

/-- The same normalization as a `String` transformation. -/
def normalizeString (s : String) : String := String.mk (normalizeText s.data)

/-- Shared helper: the head of a `dropWhile` result never satisfies the
predicate. -/
theorem dropWhile_head_not {α : Type} (p : α → Bool) :
    ∀ (l : List α) (c : α), (l.dropWhile p).head? = some c → p c = false := by
  intro l
  induction l with
  | nil => intro c hc; simp at hc
  | cons a as ih =>
    intro c hc
    rw [List.dropWhile_cons] at hc
    by_cases hp : p a
    · rw [if_pos hp] at hc
      exact ih c hc
    · rw [if_neg hp] at hc
      rw [List.head?_cons, Option.some.injEq] at hc
      subst hc
      simpa using hp

/-- Shared helper: `dropWhile` is the identity when the head does not
satisfy the predicate. -/
theorem dropWhile_eq_self_of_head {α : Type} (p : α → Bool) :
    ∀ l : List α, (∀ c, l.head? = some c → p c = false) → l.dropWhile p = l := by
  intro l h
  cases l with
  | nil => rfl
  | cons a as =>
    have := h a rfl
    rw [List.dropWhile_cons, if_neg (by simp [this])]

/-- Shared helper: `trim` is idempotent. -/
theorem trimChars_idem (l : List Char) : trimChars (trimChars l) = trimChars l := by
  have hA : (trimChars l).dropWhile isJsWs = trimChars l := by
    apply dropWhile_eq_self_of_head
    intro c hc
    unfold trimChars at hc
    rw [List.head?_reverse] at hc
    have hmne : (l.dropWhile isJsWs).reverse.dropWhile isJsWs ≠ [] := by
      intro h0
      rw [h0] at hc
      simp at hc
    have h1 : (l.dropWhile isJsWs).reverse.getLast?
        = ((l.dropWhile isJsWs).reverse.dropWhile isJsWs).getLast? := by
      conv_lhs => rw [← List.takeWhile_append_dropWhile isJsWs (l.dropWhile isJsWs).reverse]
      exact List.getLast?_append_of_ne_nil _ hmne
    rw [← h1, List.getLast?_reverse] at hc
    exact dropWhile_head_not isJsWs l c hc
  have hB : ((l.dropWhile isJsWs).reverse.dropWhile isJsWs).dropWhile isJsWs
      = (l.dropWhile isJsWs).reverse.dropWhile isJsWs := by
    apply dropWhile_eq_self_of_head
    intro c hc
    exact dropWhile_head_not isJsWs _ c hc
  show (((trimChars l).dropWhile isJsWs).reverse.dropWhile isJsWs).reverse = trimChars l
  rw [hA]
  unfold trimChars
  rw [List.reverse_reverse, hB]

/-- Shared helper: membership in a trimmed list implies membership in the
original. -/
theorem mem_trimChars {c : Char} {l : List Char} (h : c ∈ trimChars l) : c ∈ l := by
  unfold trimChars at h
  rw [List.mem_reverse] at h
  have h1 : c ∈ (l.dropWhile isJsWs).reverse := (List.dropWhile_suffix isJsWs).sublist.mem h
  rw [List.mem_reverse] at h1
  exact (List.dropWhile_suffix isJsWs).sublist.mem h1

/-- No two adjacent characters are both whitespace. -/
def noTwoWs (a b : Char) : Prop := ¬(isJsWs a = true ∧ isJsWs b = true)

/-- Shared helper: `replace(/\r\n/g, ...)` is the identity on a string
with no carriage return. -/
theorem replaceCrlf_of_no_cr : ∀ l : List Char, '\r' ∉ l → replaceCrlf l = l := by
  intro l
  induction l using replaceCrlf.induct with
  | case1 => intro h; rfl
  | case2 c => intro h; rfl
  | case3 c d rest h ih =>
    intro hmem
    exact absurd (List.mem_cons.mpr (Or.inl h.1.symm)) hmem
  | case4 c d rest h ih =>
    intro hmem
    rw [replaceCrlf, if_neg h, ih (fun hm => hmem (List.mem_cons.mpr (Or.inr hm)))]

/-- Shared helper: `replace(/\n{3,}/g, ...)` is the identity on a string
with no newline. -/
theorem collapseNl_of_no_nl : ∀ l : List Char, '\n' ∉ l → collapseNl l = l := by
  intro l
  induction l using collapseNl.induct with
  | case1 => intro h; rw [collapseNl]
  | case2 cs hrun ih =>
    intro hmem
    exact absurd (List.mem_cons_self '\n' cs) hmem
  | case3 cs hrun ih =>
    intro hmem
    exact absurd (List.mem_cons_self '\n' cs) hmem
  | case4 c cs h ih =>
    intro hmem
    rw [collapseNl, if_neg h, ih (fun hm => hmem (List.mem_cons.mpr (Or.inr hm)))]

/-- Shared helper: every whitespace character surviving `collapseWs` is a
plain space. -/
theorem collapseWs_ws_eq_space :
    ∀ l : List Char, ∀ c ∈ collapseWs l, isJsWs c = true → c = ' ' := by
  intro l
  induction l using collapseWs.induct with
  | case1 => intro c hc; simp [collapseWs] at hc
  | case2 c cs h ih =>
    intro d hd hw
    rw [collapseWs, if_pos h] at hd
    rcases List.mem_cons.mp hd with h1 | h1
    · exact h1
    · exact ih d h1 hw
  | case3 c cs h ih =>
    intro d hd hw
    rw [collapseWs, if_neg h] at hd
    rcases List.mem_cons.mp hd with h1 | h1
    · subst h1
      exact absurd hw (by simpa using h)
    · exact ih d h1 hw

/-- Shared helper: `collapseWs` keeps a non-whitespace head non-whitespace. -/
theorem collapseWs_head_not :
    ∀ l : List Char, (∀ c, l.head? = some c → isJsWs c = false) →
      ∀ c, (collapseWs l).head? = some c → isJsWs c = false := by
  intro l
  cases l with
  | nil =>
    intro h c hc
    simp [collapseWs] at hc
  | cons a as =>
    intro h c hc
    have ha : isJsWs a = false := h a rfl
    rw [collapseWs, if_neg (by simp [ha])] at hc
    rw [List.head?_cons, Option.some.injEq] at hc
    exact hc ▸ ha

/-- Shared helper: the output of `collapseWs` never has two adjacent
whitespace characters. -/
theorem collapseWs_chain : ∀ l : List Char, List.Chain' noTwoWs (collapseWs l) := by
  intro l
  induction l using collapseWs.induct with
  | case1 => simp [collapseWs]
  | case2 c cs h ih =>
    rw [collapseWs, if_pos h, List.chain'_cons']
    refine ⟨?_, ih⟩
    intro b hb
    have hbws : isJsWs b = false :=
      collapseWs_head_not (cs.dropWhile isJsWs)
        (fun d hd => dropWhile_head_not isJsWs cs d hd) b hb
    exact fun hcontra => by rw [hbws] at hcontra; exact Bool.false_ne_true hcontra.2
  | case3 c cs h ih =>
    rw [collapseWs, if_neg h, List.chain'_cons']
    refine ⟨?_, ih⟩
    intro b hb
    exact fun hcontra => h hcontra.1

/-- Shared helper: `collapseWs` is the identity on a list whose
whitespace is all plain spaces with no two adjacent. -/
theorem collapseWs_eq_self : ∀ l : List Char,
    (∀ c ∈ l, isJsWs c = true → c = ' ') → List.Chain' noTwoWs l → collapseWs l = l := by
  intro l
  induction l with
  | nil =>
    intro _ _
    simp [collapseWs]
  | cons a as ih =>
    intro hsp hch
    have hch2 : List.Chain' noTwoWs as := hch.tail
    have ihas := ih (fun c hc hw => hsp c (List.mem_cons_of_mem _ hc) hw) hch2
    by_cases ha : isJsWs a
    · have ha' : a = ' ' := hsp a (List.mem_cons_self a as) ha
      have hdrop : as.dropWhile isJsWs = as := by
        cases as with
        | nil => rfl
        | cons b bs =>
          have hrel := (List.chain'_cons'.mp hch).1 b rfl
          have hb : isJsWs b = false := by
            by_contra hbb
            exact hrel ⟨ha, by simpa using hbb⟩
          rw [List.dropWhile_cons, if_neg (by simp [hb])]
      rw [collapseWs, if_pos ha, hdrop, ihas, ha']
    · rw [collapseWs, if_neg ha, ihas]

/-- Shared helper: trimming preserves the no-two-adjacent-whitespace
invariant. -/
theorem chain_trimChars {l : List Char} (h : List.Chain' noTwoWs l) :
    List.Chain' noTwoWs (trimChars l) := by
  have hsym : ∀ (m : List Char), List.Chain' noTwoWs m → List.Chain' (flip noTwoWs) m :=
    fun m hm => hm.imp (fun a b hab hc => hab ⟨hc.2, hc.1⟩)
  have h1 : List.Chain' noTwoWs (l.dropWhile isJsWs) :=
    h.suffix (List.dropWhile_suffix isJsWs)
  have h3 : List.Chain' noTwoWs (l.dropWhile isJsWs).reverse :=
    (List.chain'_reverse).mpr (hsym _ h1)
  have h4 : List.Chain' noTwoWs ((l.dropWhile isJsWs).reverse.dropWhile isJsWs) :=
    h3.suffix (List.dropWhile_suffix isJsWs)
  exact (List.chain'_reverse).mpr (hsym _ h4)

/-- Shared helper: the full normalization is idempotent on character
lists. -/
theorem normalizeText_idem (l : List Char) :
    normalizeText (normalizeText l) = normalizeText l := by
  unfold normalizeText
  have hws : ∀ c ∈ trimChars (collapseWs (collapseNl (replaceCrlf l))),
      isJsWs c = true → c = ' ' :=
    fun c hc hw => collapseWs_ws_eq_space _ c (mem_trimChars hc) hw
  have hcr : '\r' ∉ trimChars (collapseWs (collapseNl (replaceCrlf l))) := by
    intro hmem
    have := hws '\r' hmem (by decide)
    exact absurd this (by decide)
  have hnl : '\n' ∉ trimChars (collapseWs (collapseNl (replaceCrlf l))) := by
    intro hmem
    have := hws '\n' hmem (by decide)
    exact absurd this (by decide)
  have hchain : List.Chain' noTwoWs (trimChars (collapseWs (collapseNl (replaceCrlf l)))) :=
    chain_trimChars (collapseWs_chain _)
  rw [replaceCrlf_of_no_cr _ hcr, collapseNl_of_no_nl _ hnl,
    collapseWs_eq_self _ hws hchain, trimChars_idem]

/-- Claim C8: the whitespace normalization applied to extracted text
(CRLF to LF, collapse runs of three or more newlines, collapse whitespace
runs to single spaces, trim) is idempotent: applying it to its own output
returns that output unchanged, for every input string. -/
theorem C8_normalization_idempotent (s : String) :
    normalizeString (normalizeString s) = normalizeString s :=
  congrArg String.mk (normalizeText_idem s.data)
